import Mathlib

/-!
# Verification of the auth-lab authentication server

A shallow embedding of the security-relevant parts of the `auth-lab`
Express/Passport/Prisma server: the Prisma `User` table, the Passport local
and Google strategies, session (de)serialization, the `/auth` routes
(register, login, me) and the owner-only `/api/users/:id/nickname` routes.

JavaScript-specific behaviour is modelled explicitly where it matters:
truthiness tests on non-boolean values (in particular the un-awaited
`Promise` returned by `argon2.verify` in the local strategy), and the
`Number()` coercion applied to the `:id` URL parameter.
-/

namespace AuthLab

/-! ## Data model

The Prisma `User` table (migration `init`): `id` INTEGER PRIMARY KEY
AUTOINCREMENT, `email` TEXT NOT NULL UNIQUE, `passwordHash` TEXT nullable,
`provider` TEXT NOT NULL DEFAULT 'local', `providerId` TEXT nullable,
`nickname` TEXT NOT NULL DEFAULT ''.  The `createdAt`/`updatedAt`
timestamps are maintained automatically by Prisma and are not part of any
query in the server code, so they are omitted from the model. -/

structure User where
  id : Int
  email : String
  passwordHash : Option String
  provider : String
  providerId : Option String
  nickname : String
deriving Repr, DecidableEq

/-- The public projection the server returns to clients:
`select: {id: true, email: true, nickname: true}` — by construction it has
no `passwordHash` field. -/
structure PublicUser where
  id : Int
  email : String
  nickname : String
deriving Repr, DecidableEq

def User.publicProj (u : User) : PublicUser :=
  { id := u.id, email := u.email, nickname := u.nickname }

/-- The user store: the `User` rows plus the next AUTOINCREMENT id. -/
structure Db where
  users : List User
  nextId : Int
deriving Repr, DecidableEq

/-- `prisma.user.findUnique({where: {email}})`. -/
def findByEmail (db : Db) (email : String) : Option User :=
  db.users.find? (fun u => u.email == email)

/-- `prisma.user.findUnique({where: {id}})`. -/
def findById (db : Db) (id : Int) : Option User :=
  db.users.find? (fun u => u.id == id)

/-- `prisma.user.findFirst({where: {provider, providerId}})`. -/
def findFirstByProviderSubject (db : Db) (provider providerId : String) : Option User :=
  db.users.find? (fun u => u.provider == provider && u.providerId == some providerId)

/-! ## The argon2 library model

`argon2.hash` embeds a random salt in the digest in reality; the model uses
a fixed injective encoding, and `argon2.verify digest plain` checks the
digest against the plaintext, deciding exactly whether `plain` is the
password that produced `digest`. -/

def argon2hash (plaintext : String) : String :=
  "$argon2id$" ++ plaintext

def argon2verify (digest plaintext : String) : Bool :=
  digest == argon2hash plaintext

/-! ## JavaScript value semantics used by the code -/

/-- A JavaScript value sitting in a boolean test position: either an actual
boolean, or a `Promise<boolean>` that was not awaited.  `argon2.verify`
returns a `Promise`; the local strategy stores it in `ok` without `await`. -/
inductive JsBoolish where
  | bool (b : Bool)
  | promise (resolvesTo : Bool)
deriving Repr, DecidableEq

/-- JavaScript truthiness: a boolean is itself; every object — in
particular a `Promise`, whatever it would resolve to — is truthy. -/
def JsBoolish.truthy : JsBoolish → Bool
  | .bool b => b
  | .promise _ => true

/-- JavaScript falsiness of a nullable string field (`!user.passwordHash`):
`null` and the empty string are falsy. -/
def jsStrFalsy : Option String → Bool
  | none => true
  | some s => s.isEmpty

/-! ## Passport local strategy -/

/-- Outcome of a Passport verify callback: `done(null, false, {message})`
on failure, `done(null, user)` on success. -/
inductive AuthOutcome where
  | failure (message : String)
  | success (user : PublicUser)
deriving Repr, DecidableEq

/-- The `LocalStrategy` verify callback (`passport.ts`): look up the user by
email; if no user or no `passwordHash`, fail with the generic message.
Otherwise the source computes `const ok = argon2.verify(user.passwordHash,
password)` WITHOUT `await`, so `ok` is the `Promise` object itself, and the
`if (!ok)` test is a truthiness test on that `Promise`.  On the path taken,
`done(null, {id, email, nickname})` returns the public projection. -/
def localVerify (db : Db) (email password : String) : AuthOutcome :=
  match findByEmail db email with
  | none => .failure "Invalid Credentials"
  | some user =>
    if jsStrFalsy user.passwordHash then
      .failure "Invalid Credentials"
    else
      let ok : JsBoolish := .promise (argon2verify (user.passwordHash.getD "") password)
      if ok.truthy = false then
        .failure "Invalid Credentials"
      else
        .success user.publicProj

/-! ## zod validators (`validators.ts`)

`registerSchema = z.object({email: z.email(), password:
z.string().min(8).max(128)})`, `loginSchema` requires a valid email and a
nonempty password, `nicknameSchema = z.object({nickname:
z.string().trim().max(50)})`.

`z.email()` is zod's default email pattern: a local part over
`[A-Za-z0-9_'+-.]` not starting with a dot and ending in `[A-Za-z0-9_+-]`,
no two consecutive dots anywhere, an `@`, then one or more labels
(`[A-Za-z0-9][A-Za-z0-9-]*` each followed by a dot) and a final alphabetic
top-level label of length at least 2. -/

/-- Whitespace trimming on the character list (the JS `trim`). -/
def trimChars (cs : List Char) : List Char :=
  ((cs.dropWhile Char.isWhitespace).reverse.dropWhile Char.isWhitespace).reverse

/-- Splitting on a separator character, with the semantics of the JS
`split` / Lean `String.splitOn`: `n` separators yield `n + 1` pieces. -/
def splitOnChar (sep : Char) : List Char → List (List Char)
  | [] => [[]]
  | c :: rest =>
    let r := splitOnChar sep rest
    if c == sep then
      [] :: r
    else
      match r with
      | [] => [[c]]
      | h :: t => (c :: h) :: t

def isLocalChar (c : Char) : Bool :=
  c.isAlpha || c.isDigit || c == '_' || c == Char.ofNat 39 || c == '+' || c == '-' || c == '.'

def isLocalLastChar (c : Char) : Bool :=
  c.isAlpha || c.isDigit || c == '_' || c == '+' || c == '-'

def noDoubleDot : List Char → Bool
  | c1 :: c2 :: rest => !(c1 == '.' && c2 == '.') && noDoubleDot (c2 :: rest)
  | _ => true

def localPartOk (l : List Char) : Bool :=
  match l.reverse with
  | [] => false
  | last :: revInit => isLocalLastChar last && revInit.all isLocalChar

def labelOk : List Char → Bool
  | [] => false
  | c :: rest => (c.isAlpha || c.isDigit) && rest.all (fun d => d.isAlpha || d.isDigit || d == '-')

def tldOk (cs : List Char) : Bool :=
  decide (2 ≤ cs.length) && cs.all Char.isAlpha

def domainOk (cs : List Char) : Bool :=
  let parts := splitOnChar '.' cs
  decide (2 ≤ parts.length) && parts.dropLast.all labelOk && tldOk (parts.getLastD [])

def emailValid (s : String) : Bool :=
  match splitOnChar '@' s.toList with
  | [localPart, domain] =>
    (match localPart with
     | [] => false
     | c :: _ => !(c == '.'))
    && localPartOk localPart
    && noDoubleDot s.toList
    && domainOk domain
  | _ => false

/-- `registerSchema.parse` succeeds iff this holds (string lengths counted
in characters; identical to JS for the ASCII inputs in scope). -/
def registerSchemaCheck (email password : String) : Bool :=
  emailValid email && decide (8 ≤ password.length) && decide (password.length ≤ 128)

/-- `loginSchema.parse` succeeds iff this holds. -/
def loginSchemaCheck (email password : String) : Bool :=
  emailValid email && decide (1 ≤ password.length)

/-! ## HTTP responses of the modelled routes -/

inductive Response where
  | invalidInput
  | emailTaken
  | unauthorized
  | forbidden
  | loginFailed (message : String)
  | okUser (u : PublicUser)
  | okNull
  | okNickname (nickname : String)
deriving Repr, DecidableEq

/-! ## /auth routes (`routes/auth.ts`) -/

/-- `POST /auth/register`: validate, reject an already-registered email
with 400 "Email already registered", otherwise hash the password with
argon2id, create the row (autoincrement id, `nickname: ''`) and return the
`{id, email, nickname}` selection. -/
def registerRoute (db : Db) (email password : String) : Db × Response :=
  if registerSchemaCheck email password = false then
    (db, .invalidInput)
  else
    match findByEmail db email with
    | some _ => (db, .emailTaken)
    | none =>
      let newUser : User :=
        { id := db.nextId
          email := email
          passwordHash := some (argon2hash password)
          provider := "local"
          providerId := none
          nickname := "" }
      ({ users := db.users ++ [newUser], nextId := db.nextId + 1 },
       .okUser newUser.publicProj)

/-- `POST /auth/login`: validate the body shape, then run the local
strategy; `done(null, false, info)` becomes a 401 with `info.message`,
`done(null, user)` becomes a 200 with the user. -/
def loginRoute (db : Db) (email password : String) : Response :=
  if loginSchemaCheck email password = false then
    .invalidInput
  else
    match localVerify db email password with
    | .failure msg => .loginFailed msg
    | .success u => .okUser u

/-! ## Session restoration (`passport.deserializeUser`) and /auth/me -/

/-- `passport.deserializeUser`: `findUnique` by the id stored in the
session, selecting `{id, email, nickname}`; an absent row yields
`done(null, null)` — a plain "no user" result, not an error. -/
def deserializeUser (db : Db) (id : Int) : Option PublicUser :=
  (findById db id).map User.publicProj

/-- What `passport.session()` attaches as `req.user`: nothing when the
session carries no user id, otherwise the result of `deserializeUser`. -/
def restoreUser (db : Db) (sessionUserId : Option Int) : Option PublicUser :=
  match sessionUserId with
  | none => none
  | some id => deserializeUser db id

/-- `GET /auth/me`: `res.json(req.user ?? null)`. -/
def meRoute (reqUser : Option PublicUser) : Response :=
  match reqUser with
  | none => .okNull
  | some u => .okUser u

/-! ## The JavaScript `Number()` coercion

`const targetId = Number(req.params.id)` coerces the URL parameter through
the ECMAScript StringNumericLiteral grammar.  The model trims whitespace,
maps the empty string to `0`, and handles signed decimal literals with
optional fraction and exponent, `Infinity`, and unsigned hex/octal/binary
integer literals; any other string is NaN.  Finite values are modelled as
exact rationals (route-id comparisons only ever pin integer values, where
this agrees with IEEE doubles). -/

inductive JsNum where
  | nan
  | inf (neg : Bool)
  | num (q : ℚ)
deriving Repr, DecidableEq

def decDigitsVal (ds : List Char) : Nat :=
  ds.foldl (fun acc c => acc * 10 + (c.toNat - 48)) 0

def parseDigits? (cs : List Char) : Option Nat :=
  if !cs.isEmpty && cs.all Char.isDigit then some (decDigitsVal cs) else none

/-- DecimalDigits `.` DecimalDigits, either side optional but not both. -/
def parseMantissa? (cs : List Char) : Option ℚ :=
  let intPart := cs.takeWhile Char.isDigit
  let rest := cs.drop intPart.length
  match rest with
  | [] => if intPart.isEmpty then none else some ((decDigitsVal intPart : ℚ))
  | dot :: frac =>
    if dot == '.' && frac.all Char.isDigit && (!intPart.isEmpty || !frac.isEmpty) then
      some ((decDigitsVal intPart : ℚ) + (decDigitsVal frac : ℚ) / ((10 : ℚ) ^ frac.length))
    else
      none

/-- ExponentPart digits with optional sign. -/
def parseExp? (cs : List Char) : Option Int :=
  match cs with
  | '+' :: ds => (parseDigits? ds).map (fun n => (n : Int))
  | '-' :: ds => (parseDigits? ds).map (fun n => -(n : Int))
  | ds => (parseDigits? ds).map (fun n => (n : Int))

def applyExp (q : ℚ) (e : Int) : ℚ :=
  if 0 ≤ e then q * (10 : ℚ) ^ e.toNat else q / (10 : ℚ) ^ (-e).toNat

def parseDecimal? (cs : List Char) : Option ℚ :=
  match cs.findIdx? (fun c => c == 'e' || c == 'E') with
  | none => parseMantissa? cs
  | some i =>
    match parseMantissa? (cs.take i), parseExp? (cs.drop (i + 1)) with
    | some m, some e => some (applyExp m e)
    | _, _ => none

def isHexDigitChar (c : Char) : Bool :=
  c.isDigit || (97 ≤ c.toNat && c.toNat ≤ 102) || (65 ≤ c.toNat && c.toNat ≤ 70)

def hexDigitVal (c : Char) : Nat :=
  if c.isDigit then c.toNat - 48
  else if 97 ≤ c.toNat then c.toNat - 87
  else c.toNat - 55

def parseRadix? (radix : Nat) (digitOk : Char → Bool) (cs : List Char) : Option Nat :=
  if !cs.isEmpty && cs.all digitOk then
    some (cs.foldl (fun acc c => acc * radix + hexDigitVal c) 0)
  else
    none

/-- A signed numeric literal: `Infinity` or a decimal literal (the sign is
not permitted before hex/octal/binary literals in the grammar). -/
def jsSigned (neg : Bool) (cs : List Char) : JsNum :=
  if cs == "Infinity".toList then
    .inf neg
  else
    match parseDecimal? cs with
    | some q => .num (if neg then -q else q)
    | none => .nan

def jsUnsigned (cs : List Char) : JsNum :=
  match cs with
  | '0' :: c :: rest =>
    if c == 'x' || c == 'X' then
      match parseRadix? 16 isHexDigitChar rest with
      | some n => .num (n : ℚ)
      | none => .nan
    else if c == 'o' || c == 'O' then
      match parseRadix? 8 (fun d => 48 ≤ d.toNat && d.toNat ≤ 55) rest with
      | some n => .num (n : ℚ)
      | none => .nan
    else if c == 'b' || c == 'B' then
      match parseRadix? 2 (fun d => d == '0' || d == '1') rest with
      | some n => .num (n : ℚ)
      | none => .nan
    else
      jsSigned false cs
  | _ => jsSigned false cs

def jsNumber (s : String) : JsNum :=
  match trimChars s.toList with
  | [] => .num 0
  | '+' :: rest => jsSigned false rest
  | '-' :: rest => jsSigned true rest
  | cs => jsUnsigned cs

/-- JavaScript strict equality `req.user.id === targetId` between the
session user's numeric id and the coerced URL parameter: NaN is unequal to
everything, infinities are unequal to every finite id, finite values
compare numerically. -/
def idStrictEq (id : Int) : JsNum → Bool
  | .num q => decide ((id : ℚ) = q)
  | _ => false

/-! ## Owner-only nickname routes (`routes/users.ts`) -/

/-- `nicknameSchema.parse(req.body)`: the body must carry a string
`nickname` (`none` models a missing or non-string field), which is trimmed
and must then be at most 50 characters. -/
def nicknameSchemaParse (body : Option String) : Option String :=
  match body with
  | none => none
  | some s =>
    let t := trimChars s.toList
    if t.length ≤ 50 then some t.asString else none

/-- `prisma.user.findUnique({where: {id: targetId}})` with the coerced
parameter as the key. -/
def findByIdNum (db : Db) (targetId : JsNum) : Option User :=
  db.users.find? (fun u => idStrictEq u.id targetId)

/-- `prisma.user.update({where: {id: targetId}, data: {nickname}})`:
updates the unique matching row; `none` models the exception Prisma throws
when no row matches (caught by the handler's catch-all). -/
def updateNickname (db : Db) (targetId : JsNum) (nickname : String) : Option Db :=
  match findByIdNum db targetId with
  | none => none
  | some _ =>
    some { db with
           users := db.users.map (fun u =>
             if idStrictEq u.id targetId then { u with nickname := nickname } else u) }

/-- `GET /api/users/:id/nickname` behind the `requireAuth` middleware
(`if (!req.user) return 401`), then the ownership check
`if (req.user.id !== targetId) return 403`, then
`res.json({nickname: user?.nickname ?? ''})`. -/
def getNicknameRoute (db : Db) (reqUser : Option PublicUser) (idParam : String) : Response :=
  match reqUser with
  | none => .unauthorized
  | some user =>
    let targetId := jsNumber idParam
    if idStrictEq user.id targetId = false then
      .forbidden
    else
      match findByIdNum db targetId with
      | none => .okNickname ""
      | some row => .okNickname row.nickname

/-- `PUT /api/users/:id/nickname` behind `requireAuth`, then the ownership
check, then `nicknameSchema.parse` and the update, with the whole body of
the `try` falling back to 400 "Invalid input" on any exception. -/
def putNicknameRoute (db : Db) (reqUser : Option PublicUser) (idParam : String)
    (body : Option String) : Db × Response :=
  match reqUser with
  | none => (db, .unauthorized)
  | some user =>
    let targetId := jsNumber idParam
    if idStrictEq user.id targetId = false then
      (db, .forbidden)
    else
      match nicknameSchemaParse body with
      | none => (db, .invalidInput)
      | some nickname =>
        match updateNickname db targetId nickname with
        | none => (db, .invalidInput)
        | some db2 => (db2, .okNickname nickname)

/-! ## Passport Google strategy -/

/-- Outcome of the Google verify callback: `done(null, false, {...})` when
the profile carries no email, or `done(null, user)` where `user` is either
the full row found by `(provider, providerId)` or the `{id, email,
nickname}` selection returned by the upsert. -/
inductive GoogleOutcome where
  | noEmail
  | foundRow (u : User)
  | upserted (p : PublicUser)
deriving Repr, DecidableEq

/-- `prisma.user.upsert({where: {email}, update: {provider, providerId},
create: {email, provider, providerId, nickname: ''}})`: update the unique
row with that email in place if it exists, otherwise insert a fresh row
(no `passwordHash`); returns the resulting row. -/
def upsertByEmail (db : Db) (email provider providerId : String) : Db × User :=
  match findByEmail db email with
  | some u =>
    ({ db with
       users := db.users.map (fun v =>
         if v.email == email then { v with provider := provider, providerId := some providerId }
         else v) },
     { u with provider := provider, providerId := some providerId })
  | none =>
    let newUser : User :=
      { id := db.nextId
        email := email
        passwordHash := none
        provider := provider
        providerId := some providerId
        nickname := "" }
    ({ users := db.users ++ [newUser], nextId := db.nextId + 1 }, newUser)

/-- The `GoogleStrategy` verify callback: take the first profile email
(failing if there is none, or if it is the falsy empty string); return the
row already linked to `(google, profile.id)` if one exists; otherwise
upsert by email — linking the provider identity onto an existing account
with that email, or creating a fresh one. -/
def googleVerify (db : Db) (profileId : String) (profileEmails : List String) :
    Db × GoogleOutcome :=
  match profileEmails.head? with
  | none => (db, .noEmail)
  | some email =>
    if email.isEmpty then
      (db, .noEmail)
    else
      match findFirstByProviderSubject db "google" profileId with
      | some u => (db, .foundRow u)
      | none =>
        let res := upsertByEmail db email "google" profileId
        (res.1, .upserted res.2.publicProj)

/-! ## Concrete fixtures used by the closed theorems and witnesses -/

/-- A locally-registered user whose stored hash is for "correct horse". -/
def pwUser : User :=
  { id := 1
    email := "a@x.com"
    passwordHash := some (argon2hash "correct horse")
    provider := "local"
    providerId := none
    nickname := "" }

/-- An OAuth-created user: no `passwordHash`. -/
def oauthUser : User :=
  { id := 2
    email := "o@x.com"
    passwordHash := none
    provider := "google"
    providerId := some "g-123"
    nickname := "" }

def demoDb : Db := { users := [pwUser, oauthUser], nextId := 3 }

/-! ## Claims -/

/-- C1: the spec claims that login with an unknown email, with a known
email but a wrong password, and with the email of an OAuth-only principal
all fail with the identical `InvalidCredentials` error.  The first and
third cases do fail identically, but the wrong-password case SUCCEEDS: the
local strategy omits `await` on `argon2.verify`, so the truthiness test
`if (!ok)` sees the Promise object (always truthy) and the verification
result is ignored.  This theorem exhibits the divergence: the stored hash
is for "correct horse", `argon2.verify` would return false for
"wrong password", yet the login returns the user. -/
theorem C1_wrong_password_login_succeeds :
    loginRoute demoDb "ghost@x.com" "anypassword" = .loginFailed "Invalid Credentials" ∧
    loginRoute demoDb "o@x.com" "anypassword" = .loginFailed "Invalid Credentials" ∧
    argon2verify (argon2hash "correct horse") "wrong password" = false ∧
    loginRoute demoDb "a@x.com" "wrong password" =
      .okUser { id := 1, email := "a@x.com", nickname := "" } := by
  decide

/-- C2: a principal whose `passwordHash` is absent can never authenticate
through the local credential path, whatever password is supplied: the
strategy rejects before any hash comparison, with the generic failure. -/
theorem C2_missing_hash_fails_closed (db : Db) (email password : String) (u : User)
    (hfind : findByEmail db email = some u) (hnone : u.passwordHash = none) :
    localVerify db email password = .failure "Invalid Credentials" := by
  simp [localVerify, hfind, hnone, jsStrFalsy]

theorem C2_missing_hash_fails_closed_witness :
    findByEmail demoDb "o@x.com" = some oauthUser ∧
    oauthUser.passwordHash = none ∧
    localVerify demoDb "o@x.com" "any password at all" = .failure "Invalid Credentials" :=
  ⟨by decide, by decide,
   C2_missing_hash_fails_closed demoDb "o@x.com" "any password at all" oauthUser
     (by decide) (by decide)⟩

/-- C7: registering a valid email/password pair whose email is already
registered returns the "Email already registered" rejection and returns
the store exactly unchanged — no principal mutated, none created. -/
theorem C7_duplicate_email_rejected (db : Db) (email password : String) (u : User)
    (hvalid : registerSchemaCheck email password = true)
    (hfound : findByEmail db email = some u) :
    registerRoute db email password = (db, .emailTaken) := by
  simp [registerRoute, hvalid, hfound]

theorem C7_duplicate_email_rejected_witness :
    registerSchemaCheck "a@x.com" "password123" = true ∧
    findByEmail demoDb "a@x.com" = some pwUser ∧
    registerRoute demoDb "a@x.com" "password123" = (demoDb, .emailTaken) :=
  ⟨by decide, by decide,
   C7_duplicate_email_rejected demoDb "a@x.com" "password123" pwUser (by decide) (by decide)⟩

/-- C8: a session whose stored user id no longer resolves to a row behaves
exactly like having no session: restoration yields the same "no user"
value (not an error), `/auth/me` answers the explicit null, and both
protected nickname routes answer Unauthorized with the store untouched. -/
theorem C8_deleted_principal_like_absent (db : Db) (sid : Int) (idParam : String)
    (body : Option String) (hdel : findById db sid = none) :
    restoreUser db (some sid) = restoreUser db none ∧
    meRoute (restoreUser db (some sid)) = .okNull ∧
    getNicknameRoute db (restoreUser db (some sid)) idParam = .unauthorized ∧
    putNicknameRoute db (restoreUser db (some sid)) idParam body = (db, .unauthorized) := by
  have h0 : restoreUser db (some sid) = none := by
    simp [restoreUser, deserializeUser, hdel]
  rw [h0]
  exact ⟨rfl, rfl, rfl, rfl⟩

theorem C8_deleted_principal_like_absent_witness :
    findById demoDb 9 = none ∧
    meRoute (restoreUser demoDb (some 9)) = .okNull ∧
    putNicknameRoute demoDb (restoreUser demoDb (some 9)) "9" (some "Z") =
      (demoDb, .unauthorized) :=
  ⟨by decide,
   (C8_deleted_principal_like_absent demoDb 9 "9" (some "Z") (by decide)).2.1,
   (C8_deleted_principal_like_absent demoDb 9 "9" (some "Z") (by decide)).2.2.2⟩

/-- C10: when the `:id` parameter does not coerce to a number (NaN), the
strict-equality ownership check rejects it against every authenticated
principal: both nickname routes answer Forbidden, and the PUT returns the
store untouched (the handler returns before any store access). -/
theorem C10_nan_param_forbidden (db : Db) (p : PublicUser) (idParam : String)
    (body : Option String) (hnan : jsNumber idParam = .nan) :
    getNicknameRoute db (some p) idParam = .forbidden ∧
    putNicknameRoute db (some p) idParam body = (db, .forbidden) := by
  constructor <;> simp [getNicknameRoute, putNicknameRoute, hnan, idStrictEq]

theorem C10_nan_param_forbidden_witness :
    jsNumber "abc" = .nan ∧
    getNicknameRoute demoDb (some { id := 1, email := "a@x.com", nickname := "" }) "abc" =
      .forbidden ∧
    putNicknameRoute demoDb (some { id := 1, email := "a@x.com", nickname := "" }) "abc"
      (some "Ada") = (demoDb, .forbidden) :=
  ⟨by decide,
   (C10_nan_param_forbidden demoDb { id := 1, email := "a@x.com", nickname := "" } "abc"
     (some "Ada") (by decide)).1,
   (C10_nan_param_forbidden demoDb { id := 1, email := "a@x.com", nickname := "" } "abc"
     (some "Ada") (by decide)).2⟩

/-! ## Helper lemmas -/

theorem find?_congr_pred {α : Type} (p q : α → Bool) (h : ∀ a, p a = q a) :
    ∀ l : List α, l.find? p = l.find? q := by
  intro l
  induction l with
  | nil => rfl
  | cons a l ih =>
    cases hpa : p a with
    | true => rw [List.find?_cons_of_pos _ hpa, List.find?_cons_of_pos _ ((h a) ▸ hpa)]
    | false =>
      rw [List.find?_cons_of_neg _ (by simp [hpa]),
        List.find?_cons_of_neg _ (by rw [← h a]; simp [hpa]), ih]

/-- Looking a row up by an integer-valued coerced parameter is looking it
up by that integer id. -/
theorem findByIdNum_int (db : Db) (i : Int) :
    findByIdNum db (.num (i : ℚ)) = findById db i := by
  unfold findByIdNum findById
  apply find?_congr_pred
  intro u
  by_cases hui : u.id = i
  · simp [idStrictEq, hui]
  · simp [idStrictEq, Int.cast_injective.ne hui, hui]

/-- C3: an OAuth assertion `(google, subject, email)` for a previously
unseen subject, where `email` already belongs to a stored principal with
no provider link, updates that principal in place — the callback returns
its id, the store keeps the same number of rows and the same autoincrement
counter, the linked row is present, and rows with other emails survive
untouched. -/
theorem C3_oauth_links_existing_email (db : Db) (subject email : String)
    (rest : List String) (u : User)
    (hne : email.isEmpty = false)
    (hsubj : findFirstByProviderSubject db "google" subject = none)
    (hmail : findByEmail db email = some u)
    (hnolink : u.providerId = none) :
    (googleVerify db subject (email :: rest)).2 =
      .upserted { id := u.id, email := u.email, nickname := u.nickname } ∧
    (googleVerify db subject (email :: rest)).1.users.length = db.users.length ∧
    (googleVerify db subject (email :: rest)).1.nextId = db.nextId ∧
    ({ u with provider := "google", providerId := some subject } : User) ∈
      (googleVerify db subject (email :: rest)).1.users ∧
    (∀ v ∈ db.users, v.email ≠ email → v ∈ (googleVerify db subject (email :: rest)).1.users) := by
  have hmail2 : db.users.find? (fun v => v.email == email) = some u := hmail
  have hu_mem : u ∈ db.users := List.mem_of_find?_eq_some hmail2
  have hu_email : (u.email == email) = true := by
    simpa using List.find?_some hmail2
  have hrun : googleVerify db subject (email :: rest) =
      (({ db with
          users := db.users.map (fun v =>
            if v.email == email then { v with provider := "google", providerId := some subject }
            else v) } : Db),
       .upserted { id := u.id, email := u.email, nickname := u.nickname }) := by
    simp [googleVerify, hne, hsubj, upsertByEmail, hmail, User.publicProj]
  refine ⟨by rw [hrun], by rw [hrun]; exact db.users.length_map _, by rw [hrun], ?_, ?_⟩
  · rw [hrun]
    have hfu : ({ u with provider := "google", providerId := some subject } : User) =
        (fun v : User =>
          if v.email == email then { v with provider := "google", providerId := some subject }
          else v) u := by
      simp [hu_email]
    rw [hfu]
    exact List.mem_map_of_mem _ hu_mem
  · intro v hv hvne
    rw [hrun]
    have hfv : (fun w : User =>
        if w.email == email then { w with provider := "google", providerId := some subject }
        else w) v = v := by
      simp [hvne]
    exact hfv ▸ List.mem_map_of_mem _ hv

/-- A locally-registered user about to have a Google identity linked. -/
def linkUser : User :=
  { id := 5
    email := "link@x.com"
    passwordHash := some (argon2hash "hunter2hunter2")
    provider := "local"
    providerId := none
    nickname := "Lin" }

def linkDb : Db := { users := [linkUser], nextId := 6 }

theorem C3_oauth_links_existing_email_witness :
    findFirstByProviderSubject linkDb "google" "g-777" = none ∧
    findByEmail linkDb "link@x.com" = some linkUser ∧
    (googleVerify linkDb "g-777" ["link@x.com"]).2 =
      .upserted { id := 5, email := "link@x.com", nickname := "Lin" } ∧
    (googleVerify linkDb "g-777" ["link@x.com"]).1.users.length = linkDb.users.length := by
  have h := C3_oauth_links_existing_email linkDb "g-777" "link@x.com" [] linkUser
    (by decide) (by decide) (by decide) (by decide)
  exact ⟨by decide, by decide, h.1, h.2.1⟩

/-- C4: every value handed back on a successful local login is the `{id,
email, nickname}` projection of the stored row; a successful registration
returns exactly the projection of the row it created (the row keeps the
hash, the response does not); and session restoration yields the
projection of the dereferenced row.  The `PublicUser` type has only those
three fields, so no such value carries a `passwordHash`. -/
theorem C4_public_projection_only (db : Db) (email password : String) :
    (∀ p, localVerify db email password = .success p →
      ∃ u, findByEmail db email = some u ∧
        p = { id := u.id, email := u.email, nickname := u.nickname }) ∧
    (∀ db2 p, registerRoute db email password = (db2, .okUser p) →
      p = { id := db.nextId, email := email, nickname := "" } ∧
      ({ id := db.nextId, email := email, passwordHash := some (argon2hash password),
         provider := "local", providerId := none, nickname := "" } : User) ∈ db2.users) ∧
    (∀ (id : Int) p, deserializeUser db id = some p →
      ∃ u, findById db id = some u ∧
        p = { id := u.id, email := u.email, nickname := u.nickname }) := by
  refine ⟨?_, ?_, ?_⟩
  · intro p h
    cases hfind : findByEmail db email with
    | none => simp [localVerify, hfind] at h
    | some u =>
      simp only [localVerify, hfind] at h
      split at h
      · cases h
      · split at h
        · cases h
        · injection h with h2
          exact ⟨u, rfl, h2.symm⟩
  · intro db2 p h
    simp only [registerRoute] at h
    split at h
    · simp at h
    · split at h
      · simp at h
      · simp only [Prod.mk.injEq] at h
        obtain ⟨hdb, hp⟩ := h
        injection hp with hp2
        refine ⟨hp2.symm, ?_⟩
        rw [← hdb]
        simp
  · intro id p h
    unfold deserializeUser at h
    rw [Option.map_eq_some'] at h
    obtain ⟨u, hu, hp⟩ := h
    exact ⟨u, hu, hp.symm⟩

theorem C4_public_projection_only_witness :
    localVerify demoDb "a@x.com" "correct horse" =
      .success { id := 1, email := "a@x.com", nickname := "" } ∧
    (∃ u, findByEmail demoDb "a@x.com" = some u ∧
      ({ id := 1, email := "a@x.com", nickname := "" } : PublicUser) =
        { id := u.id, email := u.email, nickname := u.nickname }) :=
  ⟨by decide,
   (C4_public_projection_only demoDb "a@x.com" "correct horse").1
     { id := 1, email := "a@x.com", nickname := "" } (by decide)⟩

/-- C5: a nickname PUT for a target id different from the authenticated
principal's id answers Forbidden and returns the store exactly unchanged;
with no authenticated principal the same request answers Unauthorized (the
authentication check comes first); and the outcome depends on the
principal only through its id — two principals with the same id (whatever
their email or nickname) get identical treatment. -/
theorem C5_owner_check (db : Db) (p : PublicUser) (t : Int) (idParam : String)
    (body : Option String)
    (hparam : jsNumber idParam = .num ((t : Int) : ℚ)) (hne : p.id ≠ t) :
    putNicknameRoute db (some p) idParam body = (db, .forbidden) ∧
    putNicknameRoute db none idParam body = (db, .unauthorized) ∧
    (∀ q : PublicUser, q.id = p.id →
      putNicknameRoute db (some q) idParam body = putNicknameRoute db (some p) idParam body) := by
  have hcast : ¬ ((p.id : ℚ) = ((t : Int) : ℚ)) := fun hc => hne (Int.cast_injective hc)
  have heq : idStrictEq p.id (jsNumber idParam) = false := by
    rw [hparam]
    simpa [idStrictEq] using hcast
  refine ⟨?_, ?_, ?_⟩
  · simp [putNicknameRoute, heq]
  · simp [putNicknameRoute]
  · intro q hq
    simp only [putNicknameRoute, hq]

theorem C5_owner_check_witness :
    jsNumber "2" = .num ((2 : Int) : ℚ) ∧
    (1 : Int) ≠ 2 ∧
    putNicknameRoute demoDb (some { id := 1, email := "a@x.com", nickname := "" }) "2"
      (some "Bee") = (demoDb, .forbidden) :=
  ⟨by decide, by decide,
   (C5_owner_check demoDb { id := 1, email := "a@x.com", nickname := "" } 2 "2" (some "Bee")
     (by decide) (by decide)).1⟩

/-- C6: whenever a nickname PUT succeeds, the store after is the pointwise
image of the store before under a map that preserves id, email,
passwordHash, provider and providerId of every row — only nicknames can
have changed. -/
theorem C6_nickname_update_frame (db db2 : Db) (reqUser : Option PublicUser)
    (idParam : String) (body : Option String) (nick : String)
    (h : putNicknameRoute db reqUser idParam body = (db2, .okNickname nick)) :
    ∃ f : User → User, db2.users = db.users.map f ∧
      ∀ u : User, (f u).id = u.id ∧ (f u).email = u.email ∧
        (f u).passwordHash = u.passwordHash ∧ (f u).provider = u.provider ∧
        (f u).providerId = u.providerId := by
  cases reqUser with
  | none => simp [putNicknameRoute] at h
  | some user =>
    simp only [putNicknameRoute] at h
    split at h
    · simp at h
    · split at h
      · simp at h
      · rename_i nickname hparse
        split at h
        · simp at h
        · rename_i db3 hupd
          simp only [Prod.mk.injEq] at h
          obtain ⟨hdb, hresp⟩ := h
          unfold updateNickname at hupd
          split at hupd
          · cases hupd
          · injection hupd with hupd2
            refine ⟨fun u =>
              if idStrictEq u.id (jsNumber idParam) then { u with nickname := nickname } else u,
              ?_, ?_⟩
            · rw [← hdb, ← hupd2]
            · intro u
              by_cases hc : idStrictEq u.id (jsNumber idParam) = true
              · simp [hc]
              · simp [hc]

def adaDb : Db := { users := [{ pwUser with nickname := "Ada" }, oauthUser], nextId := 3 }

theorem C6_nickname_update_frame_witness :
    putNicknameRoute demoDb (some { id := 1, email := "a@x.com", nickname := "" }) "1"
      (some " Ada ") = (adaDb, .okNickname "Ada") ∧
    (∃ f : User → User, adaDb.users = demoDb.users.map f ∧
      ∀ u : User, (f u).id = u.id ∧ (f u).email = u.email ∧
        (f u).passwordHash = u.passwordHash ∧ (f u).provider = u.provider ∧
        (f u).providerId = u.providerId) :=
  ⟨by decide,
   C6_nickname_update_frame demoDb adaDb
     (some { id := 1, email := "a@x.com", nickname := "" }) "1" (some " Ada ") "Ada"
     (by decide)⟩

/-- C9: an authenticated principal reading the nickname at its own id gets
a 200 with the empty-string nickname even when no row with that id exists
— the absent row falls back to `''` instead of surfacing an error. -/
theorem C9_missing_row_reads_empty (db : Db) (p : PublicUser) (idParam : String)
    (hparam : jsNumber idParam = .num ((p.id : Int) : ℚ))
    (hmiss : findById db p.id = none) :
    getNicknameRoute db (some p) idParam = .okNickname "" := by
  have hstrict : idStrictEq p.id (jsNumber idParam) = true := by
    rw [hparam]; simp [idStrictEq]
  have hfind : findByIdNum db (jsNumber idParam) = none := by
    rw [hparam, findByIdNum_int, hmiss]
  simp [getNicknameRoute, hstrict, hfind]

theorem C9_missing_row_reads_empty_witness :
    jsNumber "7" = .num ((7 : Int) : ℚ) ∧
    findById demoDb 7 = none ∧
    getNicknameRoute demoDb (some { id := 7, email := "g@x.com", nickname := "X" }) "7" =
      .okNickname "" :=
  ⟨by decide, by decide,
   C9_missing_row_reads_empty demoDb { id := 7, email := "g@x.com", nickname := "X" } "7"
     (by decide) (by decide)⟩

end AuthLab
